import Mathlib

set_option autoImplicit false

namespace LLMCouncil

/-!
Shallow embedding of the llm_council frontend client core:
the zustand chat store (stream reconciler, dispatcher and channel
lifecycle) and the best-response selection of the response grid.
JavaScript `null` and `undefined` are both modelled as `Option.none`;
a field that the source may leave `undefined` is therefore an `Option`.
JS objects used as string-keyed maps (`Record<string, ModelResponse>`)
are modelled as insertion-ordered association lists, matching the
enumeration order of `Object.values` on string keys.
-/

/-- Message role: the source uses the string literals `'user' | 'assistant'`. -/
inductive Role
  | user
  | assistant
deriving Repr, DecidableEq

/-- `Model` from types/index.ts. -/
structure Model where
  id : String
  name : String
  provider : String
  input_cost_per_million : Option Int
  output_cost_per_million : Option Int
deriving Repr, DecidableEq

/-- `ModelResponse` from types/index.ts, as the store's per-model streaming
buffer. Every field is optional because the reconciler can create a buffer by
object spread of `undefined` (token or error event for an unknown model),
leaving the unmentioned fields `undefined`. -/
structure ModelResponse where
  model_id : Option String
  model_name : Option String
  content : Option String
  isStreaming : Option Bool
  tokens_input : Option Int
  tokens_output : Option Int
  latency_ms : Option Int
  error : Option String
deriving Repr, DecidableEq

/-- `Message` from types/index.ts. -/
structure Message where
  id : String
  role : Role
  content : Option String
  model_id : Option String
  model_name : Option String
  tokens_input : Option Int
  tokens_output : Option Int
  latency_ms : Option Int
  error : Option String
  is_selected : Option Bool
  parent_message_id : Option String
  created_at : String
deriving Repr, DecidableEq

/-- `ConversationSummary` from types/index.ts. -/
structure ConversationSummary where
  id : String
  title : Option String
  created_at : String
  updated_at : String
  message_count : Nat
deriving Repr, DecidableEq

/-- WebSocket ready states, named after the JS `WebSocket` constants. -/
inductive ReadyState
  | CONNECTING
  | OPEN
  | CLOSING
  | CLOSED
deriving Repr, DecidableEq

/-- A WebSocket object, abstracted to an identity and its ready state. -/
structure Socket where
  id : Nat
  readyState : ReadyState
deriving Repr, DecidableEq

/-- The tagged union `WSMessage` of outbound server events
(types/index.ts). -/
inductive WSMessage
  | conversation_started (conversation_id : String)
  | token (model_id : String) (token : String)
  | model_complete (model_id : String) (model_name : String) (content : String)
      (tokens_input : Option Int) (tokens_output : Option Int)
      (latency_ms : Option Int) (error : Option String)
  | chat_complete (conversation_id : String) (user_message_id : String)
  | error (message : String) (model_id : Option String)
deriving Repr, DecidableEq

/-- The `chat` request sent over the socket by `sendMessage`. -/
structure ChatRequest where
  conversation_id : Option String
  message : String
  models : List String
deriving Repr, DecidableEq

/-- The chat store state (the data fields of `ChatStore` in chatStore.ts). -/
structure ChatState where
  conversationId : Option String
  messages : List Message
  isLoading : Bool
  currentResponses : List (String × ModelResponse)
  availableModels : List Model
  selectedModels : List String
  conversations : List ConversationSummary
  ws : Option Socket
  wsConnected : Bool
deriving Repr, DecidableEq

/-- JS object update `\x7b...obj, [k]: v\x7d` on a string-keyed record:
an existing key keeps its position and gets the new value, a new key is
appended (string-key insertion order). -/
def objSet {α : Type} : List (String × α) → String → α → List (String × α)
  | [], k, v => [(k, v)]
  | p :: r, k, v => if p.1 = k then (k, v) :: r else p :: objSet r k v

/-- JS property read `obj[k]`: `none` plays the role of `undefined`. -/
def objGet {α : Type} : List (String × α) → String → Option α
  | [], _ => none
  | p :: r, k => if p.1 = k then some p.2 else objGet r k

/-- `Object.keys`, in insertion order. -/
def objKeys {α : Type} (r : List (String × α)) : List String :=
  r.map Prod.fst

/-- `Object.values`, in insertion order. -/
def objValues {α : Type} (r : List (String × α)) : List α :=
  r.map Prod.snd

/-- Spread of an absent object: `\x7b...undefined\x7d` has every field
`undefined`. -/
def emptyResponse : ModelResponse :=
  { model_id := none, model_name := none, content := none, isStreaming := none,
    tokens_input := none, tokens_output := none, latency_ms := none, error := none }

/-- JS template-literal rendering of a possibly-`undefined` string. -/
def jsDisplay : Option String → String
  | some s => s
  | none => "undefined"

/-- The accumulated content of model `mid`'s in-progress buffer. -/
def bufferContent (s : ChatState) (mid : String) : Option String :=
  (objGet s.currentResponses mid).bind ModelResponse.content

/-- `case 'token'` of `_handleWSMessage`: append the fragment to that model's
buffer; `?.content || ''` reads the previous content, with `undefined` and
the (falsy) empty string both giving `''`. -/
def handleToken (s : ChatState) (model_id : String) (tok : String) : ChatState :=
  let old := objGet s.currentResponses model_id
  let base := old.getD emptyResponse
  let prev := (old.bind ModelResponse.content).getD ""
  let updated := { base with content := some (prev ++ tok) }
  { s with currentResponses := objSet s.currentResponses model_id updated }

/-- `case 'model_complete'` of `_handleWSMessage`: overwrite the buffer keyed
by the event's model id with a fully fresh finalized record built from the
event payload. -/
def handleModelComplete (s : ChatState) (model_id : String) (model_name : String)
    (content : String) (tokens_input : Option Int) (tokens_output : Option Int)
    (latency_ms : Option Int) (err : Option String) : ChatState :=
  let finalized : ModelResponse :=
    { model_id := some model_id, model_name := some model_name,
      content := some content, isStreaming := some false,
      tokens_input := tokens_input, tokens_output := tokens_output,
      latency_ms := latency_ms, error := err }
  { s with currentResponses := objSet s.currentResponses model_id finalized }

/-- The assistant `Message` built from a buffer at `chat_complete`
(`id` interpolates `Date.now()`, `created_at` is `toISOString()`;
`is_selected` and `parent_message_id` are not set, hence `undefined`). -/
def respToMessage (nowMs : Nat) (nowIso : String) (resp : ModelResponse) : Message :=
  { id := jsDisplay resp.model_id ++ "-" ++ toString nowMs,
    role := Role.assistant,
    content := resp.content,
    model_id := resp.model_id,
    model_name := resp.model_name,
    tokens_input := resp.tokens_input,
    tokens_output := resp.tokens_output,
    latency_ms := resp.latency_ms,
    error := resp.error,
    is_selected := none,
    parent_message_id := none,
    created_at := nowIso }

/-- `case 'chat_complete'` of `_handleWSMessage`: every current buffer, in
insertion order, becomes a permanent assistant message appended after the
existing messages; loading ends and the buffers are cleared. -/
def handleChatComplete (s : ChatState) (nowMs : Nat) (nowIso : String) : ChatState :=
  let assistantMessages := (objValues s.currentResponses).map (respToMessage nowMs nowIso)
  { s with isLoading := false,
           messages := s.messages ++ assistantMessages,
           currentResponses := [] }

/-- `case 'error'` of `_handleWSMessage`: `if (data.model_id)` is a JS
truthiness test, so both an absent model id and the empty-string model id
take the whole-turn branch (`isLoading := false`); a truthy model id marks
that buffer with the error and ends its streaming, via spread of the
existing buffer (or of `undefined` when no buffer exists). -/
def handleErrorEvent (s : ChatState) (message : String) (model_id : Option String) : ChatState :=
  match model_id with
  | some mid =>
      if mid = "" then { s with isLoading := false }
      else
        let base := (objGet s.currentResponses mid).getD emptyResponse
        let updated := { base with error := some message, isStreaming := some false }
        { s with currentResponses := objSet s.currentResponses mid updated }
  | none => { s with isLoading := false }

/-- `_handleWSMessage`: the switch over the event tag. `nowMs`/`nowIso`
supply `Date.now()` and `toISOString()` for the `chat_complete` branch. -/
def handleWSMessage (nowMs : Nat) (nowIso : String) (data : WSMessage) (s : ChatState) : ChatState :=
  match data with
  | .conversation_started cid => { s with conversationId := some cid }
  | .token mid tok => handleToken s mid tok
  | .model_complete mid mname content tin tout lat err =>
      handleModelComplete s mid mname content tin tout lat err
  | .chat_complete _ _ => handleChatComplete s nowMs nowIso
  | .error msg mid => handleErrorEvent s msg mid

/-- The user `Message` appended by `_addUserMessage`. -/
def mkUserMessage (nowMs : Nat) (nowIso : String) (content : String) : Message :=
  { id := "user-" ++ toString nowMs,
    role := Role.user,
    content := some content,
    model_id := none,
    model_name := none,
    tokens_input := none,
    tokens_output := none,
    latency_ms := none,
    error := none,
    is_selected := none,
    parent_message_id := none,
    created_at := nowIso }

/-- The seeded streaming buffer for one selected model
(`model?.name || modelId`: a missing model, or one whose display name is the
falsy empty string, falls back to the model id). -/
def seedResponse (availableModels : List Model) (modelId : String) : ModelResponse :=
  let model := availableModels.find? (fun m => m.id == modelId)
  { model_id := some modelId,
    model_name := some (match model with
      | some m => if m.name = "" then modelId else m.name
      | none => modelId),
    content := some "",
    isStreaming := some true,
    tokens_input := none,
    tokens_output := none,
    latency_ms := none,
    error := none }

/-- The `initialResponses` record built by `sendMessage`'s for-loop. -/
def seedResponses (availableModels : List Model) (selectedModels : List String) :
    List (String × ModelResponse) :=
  selectedModels.foldl
    (fun acc modelId => objSet acc modelId (seedResponse availableModels modelId)) []

/-- `sendMessage`: rejected locally when there is no socket or it is not
connected, or when no model is selected; otherwise seeds one streaming buffer
per selected model, sets loading, appends the user message, and sends the
`chat` request. Returns the new state and the request handed to `ws.send`
(`none` when nothing was sent). -/
def sendMessage (s : ChatState) (message : String) (nowMs : Nat) (nowIso : String) :
    ChatState × Option ChatRequest :=
  if s.ws = none ∨ s.wsConnected = false then (s, none)
  else if s.selectedModels.length = 0 then (s, none)
  else
    let initialResponses := seedResponses s.availableModels s.selectedModels
    let s1 := { s with isLoading := true, currentResponses := initialResponses }
    let s2 := { s1 with messages := s1.messages ++ [mkUserMessage nowMs nowIso message] }
    (s2, some { conversation_id := s.conversationId, message := message,
                models := s.selectedModels })

/-- `setAvailableModels`. The `saved` argument models the result of reading
and JSON-parsing the `llm-council-selected-models` localStorage key (an
external browser API): `none` covers a missing or falsy stored value and the
catch branch (`JSON.parse` throwing, or the parsed value not being an array),
`some parsed` a successfully parsed string array. -/
def setAvailableModels (s : ChatState) (models : List Model) (saved : Option (List String)) :
    ChatState :=
  let selectedModels :=
    match saved with
    | some parsed =>
        let kept := parsed.filter (fun id => models.any (fun m => m.id == id))
        if kept.length = 0 then models.map Model.id else kept
    | none => models.map Model.id
  { s with availableModels := models, selectedModels := selectedModels }

/-- `connectWebSocket`: returns unchanged when the current socket is `OPEN`
(`ws?.readyState === WebSocket.OPEN`); otherwise installs a fresh socket,
which starts in `CONNECTING`. -/
def connectWebSocket (s : ChatState) (freshId : Nat) : ChatState :=
  match s.ws with
  | some sock =>
      if sock.readyState = ReadyState.OPEN then s
      else { s with ws := some { id := freshId, readyState := ReadyState.CONNECTING } }
  | none => { s with ws := some { id := freshId, readyState := ReadyState.CONNECTING } }

/-- The fixed reconnection delay of the `onclose` handler, in ms. -/
def RECONNECT_DELAY_MS : Nat := 3000

/-- Event-loop level client state: the store plus the delays of the
`setTimeout` reconnection callbacks scheduled by `onclose` and not yet
fired. -/
structure ClientState where
  store : ChatState
  pendingReconnects : List Nat
deriving Repr, DecidableEq

/-- A call of `connectWebSocket` at the event-loop level. -/
def clientConnect (c : ClientState) (freshId : Nat) : ClientState :=
  { c with store := connectWebSocket c.store freshId }

/-- The socket's `onopen` handler. -/
def handleOpen (c : ClientState) : ClientState :=
  { c with store := { c.store with wsConnected := true } }

/-- The socket's `onclose` handler: clears the connection and schedules
exactly one reconnection attempt 3000 ms later. -/
def handleClose (c : ClientState) : ClientState :=
  { store := { c.store with wsConnected := false, ws := none },
    pendingReconnects := c.pendingReconnects ++ [RECONNECT_DELAY_MS] }

/-- A scheduled reconnection timer firing: `if (!get().ws)
get().connectWebSocket()` — skipped when a socket already exists. -/
def fireReconnect (c : ClientState) (freshId : Nat) : ClientState :=
  let c1 : ClientState := { c with pendingReconnects := c.pendingReconnects.tail }
  match c.store.ws with
  | none => { c1 with store := connectWebSocket c1.store freshId }
  | some _ => c1

/-- `handleSelectBest`'s local state update in ResponseGrid: the selected
message gets `is_selected := true`; a message sharing the selected message's
truthy `parent_message_id` is demoted. The first conjunct of the JS condition
is a truthiness test, so a `null`/`undefined`/empty-string parent id never
demotes anything. -/
def selectBestUpdate (messages : List Message) (messageId : String) : List Message :=
  messages.map fun msg =>
    if msg.id = messageId then { msg with is_selected := some true }
    else
      match messages.find? (fun m => m.id == messageId) with
      | some selectedMsg =>
          match selectedMsg.parent_message_id with
          | some p =>
              if p ≠ "" ∧ msg.parent_message_id = some p ∧ msg.id ≠ messageId then
                { msg with is_selected := some false }
              else msg
          | none => msg
      | none => msg

/-- A turn as grouped by ResponseGrid: one user message plus the assistant
messages that follow it. -/
structure Turn where
  userMessage : Message
  assistantMessages : List Message
deriving Repr, DecidableEq

/-- ResponseGrid's grouping loop: a user message starts a new turn, an
assistant message joins the current turn (and is dropped when no turn is
open); the trailing turn is pushed at the end. -/
def groupTurns (messages : List Message) : List Turn :=
  let step : List Turn × Option Turn → Message → List Turn × Option Turn :=
    fun acc msg =>
      if msg.role = Role.user then
        (match acc.2 with
          | some t => acc.1 ++ [t]
          | none => acc.1,
         some { userMessage := msg, assistantMessages := [] })
      else if msg.role = Role.assistant then
        match acc.2 with
        | some t => (acc.1, some { t with assistantMessages := t.assistantMessages ++ [msg] })
        | none => (acc.1, none)
      else acc
  let final := messages.foldl step ([], none)
  match final.2 with
  | some t => final.1 ++ [t]
  | none => final.1

/-- The model a buffer-touching event targets, `none` for events that touch
no per-model buffer (including the empty-string model id on `error`, which
the truthiness test routes to the whole-turn branch). -/
def eventModelTag : WSMessage → Option String
  | .token mid _ => some mid
  | .model_complete mid _ _ _ _ _ _ => some mid
  | .error _ (some mid) => if mid = "" then none else some mid
  | _ => none

/-- Discriminator for `chat_complete` events. -/
def isChatCompleteEvt : WSMessage → Bool
  | .chat_complete _ _ => true
  | _ => false

/-- Folding a list of events through the reconciler. -/
def foldEvents (nowMs : Nat) (nowIso : String) (evts : List WSMessage) (s : ChatState) :
    ChatState :=
  evts.foldl (fun st e => handleWSMessage nowMs nowIso e st) s

/-- Delivering a list of token fragments for one model, in order. -/
def foldTokens (mid : String) (ts : List String) (s : ChatState) : ChatState :=
  ts.foldl (fun st t => handleWSMessage 0 "" (.token mid t) st) s

/-- A small concrete store: two available and selected models, an open
connected socket, no history. Used by concrete witnesses. -/
def demoState : ChatState :=
  { conversationId := none,
    messages := [],
    isLoading := false,
    currentResponses := [],
    availableModels :=
      [{ id := "m1", name := "M1", provider := "p",
         input_cost_per_million := none, output_cost_per_million := none },
       { id := "m2", name := "M2", provider := "p",
         input_cost_per_million := none, output_cost_per_million := none }],
    selectedModels := ["m1", "m2"],
    conversations := [],
    ws := some { id := 1, readyState := ReadyState.OPEN },
    wsConnected := true }

/-- The store right after `sendMessage "hello"` on `demoState`: two seeded
streaming buffers and one user message. -/
def demoAfterSend : ChatState :=
  (sendMessage demoState "hello" 100 "2026-01-01T00:00:00Z").1

/-- The store after both models complete and the turn completes: three
permanent messages (user, m1, m2), no in-progress buffers. -/
def demoTurn : ChatState :=
  handleWSMessage 200 "2026-01-01T00:00:02Z" (.chat_complete "c" "u")
    (handleWSMessage 150 "t1" (.model_complete "m2" "M2" "B" none none none none)
      (handleWSMessage 120 "t0" (.model_complete "m1" "M1" "A" none none none none)
        demoAfterSend))

/-- A server-loaded assistant sibling: unlike locally reconciled messages,
messages fetched from the history API carry a `parent_message_id`. -/
def demoSibling (mid : String) (sel : Option Bool) : Message :=
  { id := mid, role := Role.assistant, content := some "c", model_id := some mid,
    model_name := some mid, tokens_input := none, tokens_output := none,
    latency_ms := none, error := none, is_selected := sel,
    parent_message_id := some "user-1", created_at := "t" }

/-- A loaded turn whose assistant messages carry parent ids: the user message
followed by two siblings, the first currently selected. -/
def demoParentMsgs : List Message :=
  [mkUserMessage 1 "t" "q", demoSibling "a1" (some true), demoSibling "a2" none]

/-- A concrete interleaved event stream for the demo turn: m1 streams two
fragments and completes, m2 fails after zero fragments. -/
def demoEvts : List WSMessage :=
  [.token "m1" "Hi", .token "m1" " there",
   .model_complete "m1" "M1" "Hi there" (some 1) (some 2) (some 5) none,
   .error "rate limited" (some "m2")]

/-! ### Association-list (JS object) lemmas -/

theorem objGet_objSet_self {α : Type} (r : List (String × α)) (k : String) (v : α) :
    objGet (objSet r k v) k = some v := by
  induction r with
  | nil => simp [objSet, objGet]
  | cons p r ih =>
    by_cases h : p.1 = k
    · simp [objSet, objGet, h]
    · simp [objSet, objGet, h, ih]

theorem objGet_objSet_ne {α : Type} (r : List (String × α)) (k k' : String) (v : α)
    (h : k' ≠ k) : objGet (objSet r k v) k' = objGet r k' := by
  have hne : ¬(k = k') := fun hc => h hc.symm
  induction r with
  | nil => simp [objSet, objGet, hne]
  | cons p r ih =>
    by_cases hp : p.1 = k
    · simp [objSet, objGet, hp, hne]
    · by_cases hp' : p.1 = k'
      · simp [objSet, objGet, hp, hp', h]
      · simp [objSet, objGet, hp, hp', ih]

theorem objSet_idem {α : Type} (r : List (String × α)) (k : String) (v : α) :
    objSet (objSet r k v) k v = objSet r k v := by
  induction r with
  | nil => simp [objSet]
  | cons p r ih =>
    by_cases h : p.1 = k
    · simp [objSet, h]
    · simp [objSet, h, ih]

theorem objKeys_objSet_mem {α : Type} (r : List (String × α)) (k : String) (v : α)
    (h : k ∈ objKeys r) : objKeys (objSet r k v) = objKeys r := by
  induction r with
  | nil => simp [objKeys] at h
  | cons p r ih =>
    by_cases hp : p.1 = k
    · simp [objSet, objKeys, hp]
    · have h2 : k = p.1 ∨ k ∈ objKeys r := by simpa [objKeys] using h
      have h' : k ∈ objKeys r := by
        rcases h2 with h0 | h0
        · exact absurd h0.symm hp
        · exact h0
      have h3 := ih h'
      simp only [objKeys] at h3
      simp [objSet, objKeys, hp, h3]

theorem objSet_notMem {α : Type} (r : List (String × α)) (k : String) (v : α)
    (h : k ∉ objKeys r) : objSet r k v = r ++ [(k, v)] := by
  induction r with
  | nil => simp [objSet]
  | cons p r ih =>
    have hp : p.1 ≠ k := by
      intro hc
      exact h (by simp [objKeys, hc])
    have h' : k ∉ objKeys r := by
      intro hc
      refine h ?_
      simp only [objKeys, List.map_cons]
      exact List.mem_cons_of_mem _ hc
    simp [objSet, hp, ih h']

theorem mem_objSet {α : Type} (r : List (String × α)) (k : String) (v : α) (q : String × α)
    (h : q ∈ objSet r k v) : q = (k, v) ∨ q ∈ r := by
  induction r with
  | nil => simpa [objSet] using h
  | cons p r ih =>
    by_cases hp : p.1 = k
    · simp only [objSet, if_pos hp] at h
      rcases List.mem_cons.mp h with h0 | h0
      · exact Or.inl h0
      · exact Or.inr (List.mem_cons_of_mem _ h0)
    · simp only [objSet, if_neg hp] at h
      rcases List.mem_cons.mp h with h0 | h0
      · exact Or.inr (h0 ▸ List.mem_cons_self _ _)
      · rcases ih h0 with h1 | h1
        · exact Or.inl h1
        · exact Or.inr (List.mem_cons_of_mem _ h1)

theorem objGet_eq_some_mem {α : Type} (r : List (String × α)) (k : String) (v : α)
    (h : objGet r k = some v) : (k, v) ∈ r := by
  induction r with
  | nil => simp [objGet] at h
  | cons p r ih =>
    by_cases hp : p.1 = k
    · obtain ⟨a, b⟩ := p
      simp only [objGet] at h
      rw [if_pos hp] at h
      have hb : b = v := by simpa using h
      have ha : a = k := by simpa using hp
      subst hb
      subst ha
      exact List.mem_cons_self _ _
    · simp only [objGet, if_neg hp] at h
      exact List.mem_cons_of_mem _ (ih h)

theorem mem_objKeys_exists {α : Type} (r : List (String × α)) (k : String)
    (h : k ∈ objKeys r) : ∃ v, objGet r k = some v := by
  induction r with
  | nil => simp [objKeys] at h
  | cons p r ih =>
    by_cases hp : p.1 = k
    · exact ⟨p.2, by simp [objGet, hp]⟩
    · have h2 : k = p.1 ∨ k ∈ objKeys r := by simpa [objKeys] using h
      have h' : k ∈ objKeys r := by
        rcases h2 with h0 | h0
        · exact absurd h0.symm hp
        · exact h0
      simpa [objGet, hp] using ih h'

/-! ### C1: token accumulation -/

theorem foldTokens_content (mid : String) (ts : List String) :
    ∀ (s : ChatState) (c : String), bufferContent s mid = some c →
      bufferContent (foldTokens mid ts s) mid
        = some (ts.foldl (fun acc t => acc ++ t) c) := by
  induction ts with
  | nil =>
    intro s c h
    simpa [foldTokens] using h
  | cons t ts ih =>
    intro s c h
    have hstep : bufferContent (handleWSMessage 0 "" (.token mid t) s) mid = some (c ++ t) := by
      simp only [handleWSMessage, handleToken, bufferContent] at h ⊢
      simp [objGet_objSet_self, h]
    have hrest := ih (handleWSMessage 0 "" (.token mid t) s) (c ++ t) hstep
    simpa [foldTokens] using hrest

/-- C1: starting from a model's seeded empty buffer, delivering its `token`
events in order accumulates exactly the concatenation of the fragments in
delivery order, so when the model succeeds the buffer content at the moment
`model_complete` arrives is that concatenation. -/
theorem C1_token_concat (s : ChatState) (mid : String) (ts : List String)
    (h : bufferContent s mid = some "") :
    bufferContent (foldTokens mid ts s) mid
      = some (ts.foldl (fun acc t => acc ++ t) "") :=
  foldTokens_content mid ts s "" h

theorem C1_witness :
    bufferContent demoAfterSend "m1" = some "" ∧
    bufferContent (foldTokens "m1" ["Hi", " there"] demoAfterSend) "m1" = some "Hi there" :=
  ⟨by decide, by simpa using C1_token_concat demoAfterSend "m1" ["Hi", " there"] (by decide)⟩

/-! ### C6: idempotence of model_complete -/

/-- C6: handling the same `model_complete` event twice for the same model in
the same turn yields the same reconciler state as handling it once — the
buffer keyed by the model identifier is overwritten in place, never
duplicated. -/
theorem C6_model_complete_idempotent (s : ChatState) (mid mname content : String)
    (tin tout lat : Option Int) (err : Option String) (n1 n2 : Nat) (i1 i2 : String) :
    handleWSMessage n2 i2 (.model_complete mid mname content tin tout lat err)
        (handleWSMessage n1 i1 (.model_complete mid mname content tin tout lat err) s)
      = handleWSMessage n1 i1 (.model_complete mid mname content tin tout lat err) s := by
  simp [handleWSMessage, handleModelComplete, objSet_idem]

/-! ### C7: local rejection when not connected -/

/-- C7: `sendMessage` with no socket or a disconnected socket is rejected
locally — the state is unchanged and no request is handed to the channel. -/
theorem C7_send_not_connected (s : ChatState) (msg : String) (nowMs : Nat) (nowIso : String)
    (h : s.ws = none ∨ s.wsConnected = false) :
    sendMessage s msg nowMs nowIso = (s, none) := by
  simp only [sendMessage]
  rw [if_pos h]

theorem C7_witness :
    sendMessage { demoState with wsConnected := false } "hi" 0 "" =
      ({ demoState with wsConnected := false }, none) :=
  C7_send_not_connected _ "hi" 0 "" (Or.inr rfl)

/-! ### C10: selected models after setAvailableModels -/

theorem setAvailableModels_none_sel (s : ChatState) (models : List Model) :
    (setAvailableModels s models none).selectedModels = models.map Model.id := rfl

theorem setAvailableModels_some_sel (s : ChatState) (models : List Model)
    (parsed : List String) :
    (setAvailableModels s models (some parsed)).selectedModels =
      (if (parsed.filter (fun mid => models.any (fun m => m.id == mid))).length = 0
       then models.map Model.id
       else parsed.filter (fun mid => models.any (fun m => m.id == mid))) := rfl

/-- C10: after `setAvailableModels models saved`, every selected identifier
belongs to some model of `models`; a non-empty `models` yields a non-empty
selection; and an absent/unparsable saved selection, or one retaining no
still-available identifier, selects all model identifiers. -/
theorem C10_selected_models_valid (s : ChatState) (models : List Model)
    (saved : Option (List String)) :
    (∀ mid ∈ (setAvailableModels s models saved).selectedModels, ∃ m ∈ models, m.id = mid) ∧
    (models ≠ [] → (setAvailableModels s models saved).selectedModels ≠ []) ∧
    ((setAvailableModels s models none).selectedModels = models.map Model.id) ∧
    (∀ parsed : List String,
      (parsed.filter (fun mid => models.any (fun m => m.id == mid))).length = 0 →
      (setAvailableModels s models (some parsed)).selectedModels = models.map Model.id) := by
  refine ⟨?_, ?_, setAvailableModels_none_sel s models, ?_⟩
  · intro mid hmid
    cases saved with
    | none =>
      rw [setAvailableModels_none_sel] at hmid
      rcases List.mem_map.mp hmid with ⟨m, hm, hid⟩
      exact ⟨m, hm, hid⟩
    | some parsed =>
      by_cases hlen :
          (parsed.filter (fun mid => models.any (fun m => m.id == mid))).length = 0
      · rw [setAvailableModels_some_sel, if_pos hlen] at hmid
        rcases List.mem_map.mp hmid with ⟨m, hm, hid⟩
        exact ⟨m, hm, hid⟩
      · rw [setAvailableModels_some_sel, if_neg hlen] at hmid
        have hmem := List.mem_filter.mp hmid
        rcases List.any_eq_true.mp hmem.2 with ⟨m, hm, hbeq⟩
        exact ⟨m, hm, by simpa using hbeq⟩
  · intro hne
    cases saved with
    | none =>
      rw [setAvailableModels_none_sel]
      simpa using hne
    | some parsed =>
      by_cases hlen :
          (parsed.filter (fun mid => models.any (fun m => m.id == mid))).length = 0
      · rw [setAvailableModels_some_sel, if_pos hlen]
        simpa using hne
      · rw [setAvailableModels_some_sel, if_neg hlen]
        intro hc
        exact hlen (by rw [hc]; rfl)
  · intro parsed hlen
    rw [setAvailableModels_some_sel, if_pos hlen]

theorem C10_witness :
    (∃ m ∈ demoState.availableModels, m.id = "m1") ∧
    (setAvailableModels demoState demoState.availableModels (some ["m1", "bogus"])).selectedModels
      ≠ [] := by
  have h := C10_selected_models_valid demoState demoState.availableModels (some ["m1", "bogus"])
  exact ⟨h.1 "m1" (by decide), h.2.1 (by decide)⟩

/-! ### C2: chat_complete moves every buffer -/

/-- C2 as stated is false at this input: with model m1's buffer still
streaming (`isStreaming = some true`), handling `chat_complete` moves the
buffer into the permanent message list with its error field still null —
the reconciler records no implicit error "incomplete". -/
theorem C2_counterexample :
    (objGet demoAfterSend.currentResponses "m1").map ModelResponse.isStreaming
      = some (some true) ∧
    ((handleWSMessage 200 "t" (.chat_complete "c" "u") demoAfterSend).messages.drop 1).map
        Message.error = [none, none] ∧
    ((handleWSMessage 200 "t" (.chat_complete "c" "u") demoAfterSend).messages.drop 1).map
        Message.error ≠ [some "incomplete", some "incomplete"] := by
  decide

/-- C2 amended: on `chat_complete` the reconciler moves every per-model
buffer — streaming ones included, verbatim, with content and error copied
unchanged (so a still-streaming buffer keeps `error = null`; no implicit
"incomplete" error is recorded) — into the permanent message list appended
after the existing messages, and clears `currentResponses` and `isLoading`. -/
theorem C2_chat_complete_moves_buffers (s : ChatState) (nowMs : Nat) (nowIso : String)
    (cid umid : String) :
    (handleWSMessage nowMs nowIso (.chat_complete cid umid) s).messages
      = s.messages ++ (objValues s.currentResponses).map (respToMessage nowMs nowIso) ∧
    (handleWSMessage nowMs nowIso (.chat_complete cid umid) s).currentResponses = [] ∧
    (handleWSMessage nowMs nowIso (.chat_complete cid umid) s).isLoading = false ∧
    ((handleWSMessage nowMs nowIso (.chat_complete cid umid) s).messages.drop
        s.messages.length).map Message.content
      = (objValues s.currentResponses).map ModelResponse.content ∧
    ((handleWSMessage nowMs nowIso (.chat_complete cid umid) s).messages.drop
        s.messages.length).map Message.error
      = (objValues s.currentResponses).map ModelResponse.error ∧
    ((handleWSMessage nowMs nowIso (.chat_complete cid umid) s).messages.drop
        s.messages.length).map Message.role
      = (objValues s.currentResponses).map (fun _ => Role.assistant) := by
  have hmsg : (handleWSMessage nowMs nowIso (.chat_complete cid umid) s).messages
      = s.messages ++ (objValues s.currentResponses).map (respToMessage nowMs nowIso) := rfl
  refine ⟨hmsg, rfl, rfl, ?_, ?_, ?_⟩ <;>
    rw [hmsg, List.drop_left, List.map_map] <;> rfl

/-! ### C4: monotone accumulation, finalized content -/

/-- C4 as stated is false at this input: after `model_complete` finalizes
m1 with content "a", a later `token` event for m1 still appends, changing
the finalized content to "ab". -/
theorem C4_counterexample :
    ((objGet (handleWSMessage 0 "" (.model_complete "m1" "M1" "a" none none none none)
        demoAfterSend).currentResponses "m1").map ModelResponse.isStreaming
      = some (some false)) ∧
    bufferContent (handleWSMessage 0 "" (.model_complete "m1" "M1" "a" none none none none)
        demoAfterSend) "m1" = some "a" ∧
    bufferContent (handleWSMessage 0 "" (.token "m1" "b")
        (handleWSMessage 0 "" (.model_complete "m1" "M1" "a" none none none none)
          demoAfterSend)) "m1" = some "ab" := by
  decide

/-- C4 amended: a `token` event extends the targeted model's buffer by exactly
the fragment (the previous content is a prefix of the new content) and leaves
other buffers unchanged; once a buffer is finalized, events that do not carry
its model identifier — tokens and completions of other models, turn-level
errors, conversation starts — leave its record unchanged, and a model-scoped
`error` for it preserves its content. A stray `token` or differing
`model_complete` bearing the same model identifier, however, can still change
the finalized content (the counterexample). -/
theorem C4_content_monotone_finalized (nowMs : Nat) (nowIso : String) :
    (∀ (s : ChatState) (mid t : String),
        bufferContent (handleWSMessage nowMs nowIso (.token mid t) s) mid
          = some (((bufferContent s mid).getD "") ++ t)) ∧
    (∀ (s : ChatState) (mid : String) (r : ModelResponse),
        objGet s.currentResponses mid = some r → r.isStreaming = some false →
        (∀ mid' t, mid' ≠ mid →
          objGet (handleWSMessage nowMs nowIso (.token mid' t) s).currentResponses mid
            = some r) ∧
        (∀ mid' mname c tin tout lat err, mid' ≠ mid →
          objGet (handleWSMessage nowMs nowIso
              (.model_complete mid' mname c tin tout lat err) s).currentResponses mid
            = some r) ∧
        (∀ msg, bufferContent (handleWSMessage nowMs nowIso (.error msg (some mid)) s) mid
            = r.content) ∧
        (∀ msg, objGet (handleWSMessage nowMs nowIso (.error msg none) s).currentResponses mid
            = some r) ∧
        (∀ cid,
          objGet (handleWSMessage nowMs nowIso
              (.conversation_started cid) s).currentResponses mid = some r)) := by
  constructor
  · intro s mid t
    simp [handleWSMessage, handleToken, bufferContent, objGet_objSet_self]
  · intro s mid r h hfin
    refine ⟨?_, ?_, ?_, ?_, ?_⟩
    · intro mid' t hne
      simp only [handleWSMessage, handleToken]
      rw [objGet_objSet_ne _ _ _ _ (fun hc => hne hc.symm)]
      exact h
    · intro mid' mname c tin tout lat err hne
      simp only [handleWSMessage, handleModelComplete]
      rw [objGet_objSet_ne _ _ _ _ (fun hc => hne hc.symm)]
      exact h
    · intro msg
      by_cases hmid : mid = ""
      · subst hmid
        simp [handleWSMessage, handleErrorEvent, bufferContent, h]
      · simp [handleWSMessage, handleErrorEvent, hmid, bufferContent, h, objGet_objSet_self]
    · intro msg
      exact h
    · intro cid
      exact h

theorem C4_witness :
    bufferContent (handleWSMessage 0 "" (.token "m1" "!")
        (handleWSMessage 0 "" (.model_complete "m1" "M1" "a" none none none none)
          demoAfterSend)) "m1"
      = some (((bufferContent (handleWSMessage 0 ""
          (.model_complete "m1" "M1" "a" none none none none) demoAfterSend) "m1").getD "")
            ++ "!") ∧
    objGet (handleWSMessage 0 "" (.token "m2" "x")
        (handleWSMessage 0 "" (.model_complete "m1" "M1" "a" none none none none)
          demoAfterSend)).currentResponses "m1"
      = some { model_id := some "m1", model_name := some "M1", content := some "a",
               isStreaming := some false, tokens_input := none, tokens_output := none,
               latency_ms := none, error := none } := by
  have h := C4_content_monotone_finalized 0 ""
  refine ⟨h.1 _ "m1" "!", ?_⟩
  have h2 := h.2 (handleWSMessage 0 "" (.model_complete "m1" "M1" "a" none none none none)
      demoAfterSend) "m1"
      { model_id := some "m1", model_name := some "M1", content := some "a",
        isStreaming := some false, tokens_input := none, tokens_output := none,
        latency_ms := none, error := none } (by decide) (by decide)
  exact h2.1 "m2" "x" (by decide)

/-! ### C5: scoping of error events -/

/-- C5 as stated is false at this input: an `error` event carrying the
(present) model identifier "" does not mark that model's buffer terminal —
the truthiness test `if (data.model_id)` routes it to the whole-turn branch,
leaving the buffer untouched and ending the loading state instead. -/
theorem C5_counterexample :
    (objGet (handleWSMessage 0 "" (.error "boom" (some ""))
        (handleWSMessage 0 "" (.token "" "x") demoAfterSend)).currentResponses ""
      = objGet (handleWSMessage 0 "" (.token "" "x") demoAfterSend).currentResponses "") ∧
    ((objGet (handleWSMessage 0 "" (.error "boom" (some ""))
        (handleWSMessage 0 "" (.token "" "x") demoAfterSend)).currentResponses "").map
          ModelResponse.isStreaming ≠ some (some false)) ∧
    (handleWSMessage 0 "" (.error "boom" (some ""))
        (handleWSMessage 0 "" (.token "" "x") demoAfterSend)).isLoading = false := by
  decide

/-- C5 amended: an `error` event carrying a non-empty model identifier marks
only that model's buffer terminal with the error description, preserving its
accumulated content and every other buffer; an `error` event with no model
identifier — or the empty-string identifier, which the truthiness test
treats as absent — only ends the loading state and modifies no buffer. -/
theorem C5_error_scoped (s : ChatState) (msg mid : String) (r : ModelResponse)
    (nowMs : Nat) (nowIso : String)
    (hmid : mid ≠ "") (h : objGet s.currentResponses mid = some r) :
    (objGet (handleWSMessage nowMs nowIso (.error msg (some mid)) s).currentResponses mid
      = some { r with error := some msg, isStreaming := some false }) ∧
    (bufferContent (handleWSMessage nowMs nowIso (.error msg (some mid)) s) mid = r.content) ∧
    (∀ mid', mid' ≠ mid →
      objGet (handleWSMessage nowMs nowIso (.error msg (some mid)) s).currentResponses mid'
        = objGet s.currentResponses mid') ∧
    ((handleWSMessage nowMs nowIso (.error msg (some mid)) s).messages = s.messages) ∧
    ((handleWSMessage nowMs nowIso (.error msg none) s).currentResponses
      = s.currentResponses) ∧
    ((handleWSMessage nowMs nowIso (.error msg none) s).isLoading = false) := by
  refine ⟨?_, ?_, ?_, ?_, rfl, rfl⟩
  · simp [handleWSMessage, handleErrorEvent, hmid, h, objGet_objSet_self]
  · simp [handleWSMessage, handleErrorEvent, hmid, h, bufferContent, objGet_objSet_self]
  · intro mid' hne
    simp only [handleWSMessage, handleErrorEvent]
    rw [if_neg hmid]
    exact objGet_objSet_ne _ _ _ _ hne
  · simp only [handleWSMessage, handleErrorEvent]
    rw [if_neg hmid]

theorem C5_witness :
    objGet (handleWSMessage 0 "" (.error "boom" (some "m1")) demoAfterSend).currentResponses
        "m1"
      = some { model_id := some "m1", model_name := some "M1", content := some "",
               isStreaming := some false, tokens_input := none, tokens_output := none,
               latency_ms := none, error := some "boom" } ∧
    objGet (handleWSMessage 0 "" (.error "boom" (some "m1")) demoAfterSend).currentResponses
        "m2"
      = objGet demoAfterSend.currentResponses "m2" := by
  have h := C5_error_scoped demoAfterSend "boom" "m1"
      { model_id := some "m1", model_name := some "M1", content := some "",
        isStreaming := some true, tokens_input := none, tokens_output := none,
        latency_ms := none, error := none } 0 "" (by decide) (by decide)
  exact ⟨h.1, h.2.2.1 "m2" (by decide)⟩

/-! ### C8: channel reconnection discipline -/

/-- C8: `onclose` schedules exactly one reconnection attempt, at the fixed
3000 ms delay; a firing reconnect timer is skipped when a socket already
exists; `connectWebSocket` is a no-op while the current socket is `OPEN`;
and two pending timers firing in sequence open only one socket (the second
fire sees the first's socket and skips), so no duplicate reconnect loops
arise. -/
theorem C8_reconnect_discipline (c : ClientState) (sock : Socket) (i j : Nat) :
    ((handleClose c).pendingReconnects = c.pendingReconnects ++ [RECONNECT_DELAY_MS]) ∧
    (RECONNECT_DELAY_MS = 3000) ∧
    (c.store.ws = some sock → (fireReconnect c i).store.ws = some sock) ∧
    (c.store.ws = some sock → sock.readyState = ReadyState.OPEN →
      (clientConnect c i).store = c.store) ∧
    (c.store.ws = none →
      (fireReconnect c i).store.ws = some { id := i, readyState := ReadyState.CONNECTING } ∧
      (fireReconnect (fireReconnect c i) j).store.ws
        = some { id := i, readyState := ReadyState.CONNECTING }) := by
  refine ⟨rfl, rfl, ?_, ?_, ?_⟩
  · intro h
    simp [fireReconnect, h]
  · intro h hopen
    simp [clientConnect, connectWebSocket, h, hopen]
  · intro h
    constructor
    · simp [fireReconnect, h, connectWebSocket]
    · simp [fireReconnect, h, connectWebSocket]

theorem C8_witness :
    ((handleClose { store := demoState, pendingReconnects := [] }).pendingReconnects
      = [RECONNECT_DELAY_MS]) ∧
    ((fireReconnect { store := { demoState with ws := none }, pendingReconnects := [3000] }
        7).store.ws = some { id := 7, readyState := ReadyState.CONNECTING }) ∧
    ((fireReconnect { store := demoState, pendingReconnects := [3000] } 7).store.ws
      = some { id := 1, readyState := ReadyState.OPEN }) ∧
    ((clientConnect { store := demoState, pendingReconnects := [] } 7).store = demoState) := by
  refine ⟨?_, ?_, ?_, ?_⟩
  · exact (C8_reconnect_discipline { store := demoState, pendingReconnects := [] }
      { id := 1, readyState := ReadyState.OPEN } 7 8).1
  · exact ((C8_reconnect_discipline
      { store := { demoState with ws := none }, pendingReconnects := [3000] }
      { id := 1, readyState := ReadyState.OPEN } 7 8).2.2.2.2 rfl).1
  · exact (C8_reconnect_discipline { store := demoState, pendingReconnects := [3000] }
      { id := 1, readyState := ReadyState.OPEN } 7 8).2.2.1 rfl
  · exact (C8_reconnect_discipline { store := demoState, pendingReconnects := [] }
      { id := 1, readyState := ReadyState.OPEN } 7 8).2.2.2.1 rfl rfl

/-! ### C9: best-response selection -/

/-- C9 as stated is false at this reachable input: the three messages of
`demoTurn` were reconciled locally by `chat_complete` and carry no
`parent_message_id`, so selecting m1's response and then m2's demotes
nothing — the single turn ends up with two responses flagged
selected-as-best. -/
theorem C9_counterexample :
    (groupTurns (selectBestUpdate (selectBestUpdate demoTurn.messages "m1-200")
        "m2-200")).map
        (fun t => (t.assistantMessages.filter (fun m => m.is_selected == some true)).length)
      = [2] := by
  decide

/-- C9 amended: the atomic demotion holds only for sibling groups linked by a
truthy `parent_message_id`: when the selected message carries a non-null,
non-empty parent id, the update flags it selected and every other message of
the same parent group unselected (so at most one message id per parent group
is selected), and messages outside the group are untouched; messages lacking
a parent id (locally reconciled responses) are never demoted. -/
theorem C9_select_best_atomic (messages : List Message) (messageId : String)
    (sel : Message) (p : String)
    (hfind : messages.find? (fun m => m.id == messageId) = some sel)
    (hp : sel.parent_message_id = some p) (hpne : p ≠ "") :
    (∀ msg ∈ selectBestUpdate messages messageId,
        msg.id = messageId → msg.is_selected = some true) ∧
    (∀ msg ∈ selectBestUpdate messages messageId,
        msg.parent_message_id = some p → msg.is_selected = some true →
        msg.id = messageId) ∧
    (∀ msg ∈ messages, msg.id ≠ messageId → msg.parent_message_id ≠ some p →
        msg ∈ selectBestUpdate messages messageId) := by
  refine ⟨?_, ?_, ?_⟩
  · intro msg hmem hid
    rcases List.mem_map.mp hmem with ⟨m0, hm0, heq⟩
    by_cases h0 : m0.id = messageId
    · rw [← heq]
      simp [h0]
    · exfalso
      rw [← heq] at hid
      simp only [h0, if_neg, hfind, hp] at hid
      by_cases hcond : p ≠ "" ∧ m0.parent_message_id = some p ∧ m0.id ≠ messageId
      · rw [if_pos hcond] at hid
        exact h0 hid
      · rw [if_neg hcond] at hid
        exact h0 hid
  · intro msg hmem hpar hsel
    rcases List.mem_map.mp hmem with ⟨m0, hm0, heq⟩
    by_cases h0 : m0.id = messageId
    · rw [← heq]
      simp [h0]
    · exfalso
      rw [← heq] at hpar hsel
      simp only [h0, if_neg, hfind, hp] at hpar hsel
      by_cases hcond : p ≠ "" ∧ m0.parent_message_id = some p ∧ m0.id ≠ messageId
      · rw [if_pos hcond] at hsel
        simp at hsel
      · rw [if_neg hcond] at hpar hsel
        push_neg at hcond
        exact h0 (hcond hpne hpar)
  · intro msg hmem hid hpar
    refine List.mem_map.mpr ⟨msg, hmem, ?_⟩
    simp only [hid, if_neg, hfind, hp]
    exact if_neg
      (fun hcond : p ≠ "" ∧ msg.parent_message_id = some p ∧ msg.id ≠ messageId =>
        hpar hcond.2.1)

theorem C9_witness :
    (∀ msg ∈ selectBestUpdate demoParentMsgs "a2",
        msg.parent_message_id = some "user-1" → msg.is_selected = some true →
        msg.id = "a2") ∧
    (∀ msg ∈ selectBestUpdate demoParentMsgs "a2",
        msg.id = "a2" → msg.is_selected = some true) := by
  have h := C9_select_best_atomic demoParentMsgs "a2" (demoSibling "a2" none) "user-1"
      (by decide) (by decide) (by decide)
  exact ⟨h.2.1, h.1⟩

/-! ### C3: one buffer and one finalized response per selected model -/

theorem seedResponses_foldl (av : List Model) :
    ∀ (M : List String) (acc : List (String × ModelResponse)),
      M.Nodup → (∀ m ∈ M, m ∉ objKeys acc) →
      M.foldl (fun a mid => objSet a mid (seedResponse av mid)) acc
        = acc ++ M.map (fun mid => (mid, seedResponse av mid)) := by
  intro M
  induction M with
  | nil =>
    intro acc _ _
    simp
  | cons m M ih =>
    intro acc hnd hfresh
    have hm : m ∉ objKeys acc := hfresh m (List.mem_cons_self _ _)
    have hstep : objSet acc m (seedResponse av m) = acc ++ [(m, seedResponse av m)] :=
      objSet_notMem _ _ _ hm
    have hnd' : M.Nodup := (List.nodup_cons.mp hnd).2
    have hmM : m ∉ M := (List.nodup_cons.mp hnd).1
    have hfresh' : ∀ m' ∈ M, m' ∉ objKeys (acc ++ [(m, seedResponse av m)]) := by
      intro m' hm' hcon
      have hsplit : m' ∈ objKeys acc ∨ m' = m := by
        simp only [objKeys, List.map_append, List.map_cons, List.map_nil] at hcon
        rcases List.mem_append.mp hcon with hc | hc
        · exact Or.inl hc
        · exact Or.inr (by simpa using hc)
      rcases hsplit with hc | hc
      · exact hfresh m' (List.mem_cons_of_mem _ hm') hc
      · exact hmM (hc ▸ hm')
    show M.foldl (fun a mid => objSet a mid (seedResponse av mid))
        (objSet acc m (seedResponse av m)) = _
    rw [hstep, ih _ hnd' hfresh']
    simp

theorem handle_step_inv (nowMs : Nat) (nowIso : String) (e : WSMessage) (s : ChatState)
    (M : List String)
    (hcc : isChatCompleteEvt e = false)
    (htag : eventModelTag e = none ∨ ∃ m ∈ M, eventModelTag e = some m)
    (hkeys : objKeys s.currentResponses = M)
    (hinv : ∀ q ∈ s.currentResponses, q.2.model_id = some q.1) :
    objKeys (handleWSMessage nowMs nowIso e s).currentResponses = M ∧
    (∀ q ∈ (handleWSMessage nowMs nowIso e s).currentResponses, q.2.model_id = some q.1) ∧
    (handleWSMessage nowMs nowIso e s).messages = s.messages := by
  cases e with
  | conversation_started cid => exact ⟨hkeys, hinv, rfl⟩
  | token mid tok =>
    have hmem : mid ∈ M := by
      rcases htag with h | ⟨m, hm, htag'⟩
      · exact absurd h (by simp [eventModelTag])
      · have hmmid : mid = m := by simpa [eventModelTag] using htag'
        exact hmmid ▸ hm
    have hmemk : mid ∈ objKeys s.currentResponses := hkeys ▸ hmem
    rcases mem_objKeys_exists _ _ hmemk with ⟨rr, hrr⟩
    have hrrid : rr.model_id = some mid := hinv (mid, rr) (objGet_eq_some_mem _ _ _ hrr)
    have hT : (handleWSMessage nowMs nowIso (.token mid tok) s).currentResponses
        = objSet s.currentResponses mid
            { (objGet s.currentResponses mid).getD emptyResponse with
              content := some
                ((((objGet s.currentResponses mid).bind ModelResponse.content).getD "")
                  ++ tok) } := rfl
    refine ⟨?_, ?_, rfl⟩
    · rw [hT, objKeys_objSet_mem _ _ _ hmemk]
      exact hkeys
    · intro q hq
      rw [hT] at hq
      rcases mem_objSet _ _ _ _ hq with h0 | h0
      · rw [h0]
        simp [hrr, hrrid]
      · exact hinv q h0
  | model_complete mid mname c tin tout lat err =>
    have hmem : mid ∈ M := by
      rcases htag with h | ⟨m, hm, htag'⟩
      · exact absurd h (by simp [eventModelTag])
      · have hmmid : mid = m := by simpa [eventModelTag] using htag'
        exact hmmid ▸ hm
    have hmemk : mid ∈ objKeys s.currentResponses := hkeys ▸ hmem
    have hT : (handleWSMessage nowMs nowIso
          (.model_complete mid mname c tin tout lat err) s).currentResponses
        = objSet s.currentResponses mid
            { model_id := some mid, model_name := some mname, content := some c,
              isStreaming := some false, tokens_input := tin, tokens_output := tout,
              latency_ms := lat, error := err } := rfl
    refine ⟨?_, ?_, rfl⟩
    · rw [hT, objKeys_objSet_mem _ _ _ hmemk]
      exact hkeys
    · intro q hq
      rw [hT] at hq
      rcases mem_objSet _ _ _ _ hq with h0 | h0
      · rw [h0]
      · exact hinv q h0
  | chat_complete cid umid => simp [isChatCompleteEvt] at hcc
  | error msg omid =>
    cases omid with
    | none => exact ⟨hkeys, hinv, rfl⟩
    | some mid =>
      by_cases hmid : mid = ""
      · subst hmid
        exact ⟨hkeys, hinv, rfl⟩
      · have hmem : mid ∈ M := by
          rcases htag with h | ⟨m, hm, htag'⟩
          · exact absurd h (by simp [eventModelTag, hmid])
          · have hmmid : mid = m := by simpa [eventModelTag, hmid] using htag'
            exact hmmid ▸ hm
        have hmemk : mid ∈ objKeys s.currentResponses := hkeys ▸ hmem
        rcases mem_objKeys_exists _ _ hmemk with ⟨rr, hrr⟩
        have hrrid : rr.model_id = some mid := hinv (mid, rr) (objGet_eq_some_mem _ _ _ hrr)
        have hE : (handleWSMessage nowMs nowIso (.error msg (some mid)) s).currentResponses
            = objSet s.currentResponses mid
                { (objGet s.currentResponses mid).getD emptyResponse with
                  error := some msg, isStreaming := some false } := by
          simp only [handleWSMessage, handleErrorEvent]
          rw [if_neg hmid]
        have hEm : (handleWSMessage nowMs nowIso (.error msg (some mid)) s).messages
            = s.messages := by
          simp only [handleWSMessage, handleErrorEvent]
          rw [if_neg hmid]
        refine ⟨?_, ?_, hEm⟩
        · rw [hE, objKeys_objSet_mem _ _ _ hmemk]
          exact hkeys
        · intro q hq
          rw [hE] at hq
          rcases mem_objSet _ _ _ _ hq with h0 | h0
          · rw [h0]
            simp [hrr, hrrid]
          · exact hinv q h0

theorem foldEvents_inv (nowMs : Nat) (nowIso : String) (M : List String) :
    ∀ (evts : List WSMessage) (s : ChatState),
      (∀ e ∈ evts, isChatCompleteEvt e = false ∧
        (eventModelTag e = none ∨ ∃ m ∈ M, eventModelTag e = some m)) →
      objKeys s.currentResponses = M →
      (∀ q ∈ s.currentResponses, q.2.model_id = some q.1) →
      objKeys (foldEvents nowMs nowIso evts s).currentResponses = M ∧
      (∀ q ∈ (foldEvents nowMs nowIso evts s).currentResponses, q.2.model_id = some q.1) ∧
      (foldEvents nowMs nowIso evts s).messages = s.messages := by
  intro evts
  induction evts with
  | nil =>
    intro s _ hkeys hinv
    exact ⟨hkeys, hinv, rfl⟩
  | cons e evts ih =>
    intro s hevts hkeys hinv
    have he := hevts e (List.mem_cons_self _ _)
    have hstep := handle_step_inv nowMs nowIso e s M he.1 he.2 hkeys hinv
    have hrest := ih (handleWSMessage nowMs nowIso e s)
      (fun e' he' => hevts e' (List.mem_cons_of_mem _ he')) hstep.1 hstep.2.1
    refine ⟨hrest.1, hrest.2.1, ?_⟩
    have hfold : foldEvents nowMs nowIso (e :: evts) s
        = foldEvents nowMs nowIso evts (handleWSMessage nowMs nowIso e s) := rfl
    rw [hfold, hrest.2.2, hstep.2.2]

theorem sendMessage_accepted (s : ChatState) (message : String) (nowMs : Nat) (nowIso : String)
    (hws : s.ws ≠ none) (hconn : s.wsConnected = true) (hne : s.selectedModels ≠ []) :
    sendMessage s message nowMs nowIso =
      ({ s with isLoading := true,
                currentResponses := seedResponses s.availableModels s.selectedModels,
                messages := s.messages ++ [mkUserMessage nowMs nowIso message] },
       some { conversation_id := s.conversationId, message := message,
              models := s.selectedModels }) := by
  have h1 : ¬(s.ws = none ∨ s.wsConnected = false) := by
    rintro (hc | hc)
    · exact hws hc
    · rw [hconn] at hc
      exact absurd hc (by decide)
  have h2 : ¬(s.selectedModels.length = 0) :=
    fun hc => hne (List.length_eq_zero.mp hc)
  simp only [sendMessage]
  rw [if_neg h1, if_neg h2]

/-- C3: an accepted `sendMessage` with a duplicate-free non-empty selected
model set M seeds exactly one streaming buffer (content "", streaming true)
per model of M, appends exactly one user message, and sends the chat request;
after any interleaving of non-final per-model events targeting models of M,
handling `chat_complete` yields exactly one assistant message per model of M
(in order), never zero, even when every model failed. -/
theorem C3_turn_responses (s : ChatState) (message : String)
    (nowMs n2 n3 : Nat) (nowIso i2 i3 : String) (cid umid : String)
    (evts : List WSMessage)
    (hws : s.ws ≠ none) (hconn : s.wsConnected = true)
    (hne : s.selectedModels ≠ []) (hnd : s.selectedModels.Nodup)
    (hevts : ∀ e ∈ evts, isChatCompleteEvt e = false ∧
      (eventModelTag e = none ∨ ∃ m ∈ s.selectedModels, eventModelTag e = some m)) :
    objKeys (sendMessage s message nowMs nowIso).1.currentResponses = s.selectedModels ∧
    ((sendMessage s message nowMs nowIso).1.currentResponses.map
        (fun q => q.2.content) = s.selectedModels.map (fun _ => some "")) ∧
    ((sendMessage s message nowMs nowIso).1.currentResponses.map
        (fun q => q.2.isStreaming) = s.selectedModels.map (fun _ => some true)) ∧
    ((sendMessage s message nowMs nowIso).1.messages
      = s.messages ++ [mkUserMessage nowMs nowIso message]) ∧
    ((sendMessage s message nowMs nowIso).2
      = some { conversation_id := s.conversationId, message := message,
               models := s.selectedModels }) ∧
    ((handleWSMessage n3 i3 (.chat_complete cid umid)
        (foldEvents n2 i2 evts (sendMessage s message nowMs nowIso).1)).messages.length
      = s.messages.length + 1 + s.selectedModels.length) ∧
    (((handleWSMessage n3 i3 (.chat_complete cid umid)
        (foldEvents n2 i2 evts (sendMessage s message nowMs nowIso).1)).messages.drop
          (s.messages.length + 1)).map Message.model_id
      = s.selectedModels.map some) := by
  have hsend := sendMessage_accepted s message nowMs nowIso hws hconn hne
  have hseed : seedResponses s.availableModels s.selectedModels
      = s.selectedModels.map (fun mid => (mid, seedResponse s.availableModels mid)) := by
    have h0 := seedResponses_foldl s.availableModels s.selectedModels [] hnd
      (by intro m _; simp [objKeys])
    simpa [seedResponses] using h0
  have hcur : (sendMessage s message nowMs nowIso).1.currentResponses
      = s.selectedModels.map (fun mid => (mid, seedResponse s.availableModels mid)) := by
    rw [hsend]
    exact hseed
  have hkeys1 : objKeys (sendMessage s message nowMs nowIso).1.currentResponses
      = s.selectedModels := by
    rw [hcur]
    simp only [objKeys, List.map_map]
    exact List.map_id _
  have hinv1 : ∀ q ∈ (sendMessage s message nowMs nowIso).1.currentResponses,
      q.2.model_id = some q.1 := by
    rw [hcur]
    intro q hq
    rcases List.mem_map.mp hq with ⟨mid, _, heq⟩
    rw [← heq]
    rfl
  have hmsg1 : (sendMessage s message nowMs nowIso).1.messages
      = s.messages ++ [mkUserMessage nowMs nowIso message] := by
    rw [hsend]
  have hfold := foldEvents_inv n2 i2 s.selectedModels evts
    (sendMessage s message nowMs nowIso).1 hevts hkeys1 hinv1
  have hmsg2 : (foldEvents n2 i2 evts (sendMessage s message nowMs nowIso).1).messages
      = s.messages ++ [mkUserMessage nowMs nowIso message] := by
    rw [hfold.2.2, hmsg1]
  have hCC : (handleWSMessage n3 i3 (.chat_complete cid umid)
        (foldEvents n2 i2 evts (sendMessage s message nowMs nowIso).1)).messages
      = (foldEvents n2 i2 evts (sendMessage s message nowMs nowIso).1).messages
        ++ (objValues
              (foldEvents n2 i2 evts
                (sendMessage s message nowMs nowIso).1).currentResponses).map
            (respToMessage n3 i3) := rfl
  have hlen2 : (foldEvents n2 i2 evts
        (sendMessage s message nowMs nowIso).1).currentResponses.length
      = s.selectedModels.length := by
    have h0 := congrArg List.length hfold.1
    simpa [objKeys] using h0
  refine ⟨hkeys1, ?_, ?_, hmsg1, by rw [hsend], ?_, ?_⟩
  · rw [hcur, List.map_map]
    rfl
  · rw [hcur, List.map_map]
    rfl
  · rw [hCC, hmsg2]
    simp [objValues, hlen2]
    omega
  · rw [hCC, hmsg2]
    have hlen : (s.messages ++ [mkUserMessage nowMs nowIso message]).length
        = s.messages.length + 1 := by simp
    rw [← hlen, List.drop_left, List.map_map]
    have hmapc : ∀ q ∈ (foldEvents n2 i2 evts
          (sendMessage s message nowMs nowIso).1).currentResponses,
        (Message.model_id ∘ respToMessage n3 i3 ∘ Prod.snd) q = (some ∘ Prod.fst) q := by
      intro q hq
      have h1 := hfold.2.1 q hq
      simpa [Function.comp, respToMessage] using h1
    calc ((objValues (foldEvents n2 i2 evts
            (sendMessage s message nowMs nowIso).1).currentResponses).map
            (Message.model_id ∘ respToMessage n3 i3))
        = (foldEvents n2 i2 evts
            (sendMessage s message nowMs nowIso).1).currentResponses.map
            (Message.model_id ∘ respToMessage n3 i3 ∘ Prod.snd) := by
          simp [objValues, List.map_map]
      _ = (foldEvents n2 i2 evts
            (sendMessage s message nowMs nowIso).1).currentResponses.map
            (some ∘ Prod.fst) := List.map_congr_left hmapc
      _ = (objKeys (foldEvents n2 i2 evts
            (sendMessage s message nowMs nowIso).1).currentResponses).map some := by
          simp [objKeys, List.map_map]
      _ = s.selectedModels.map some := by rw [hfold.1]

theorem C3_witness :
    (handleWSMessage 300 "t3" (.chat_complete "c" "u")
        (foldEvents 250 "t2" demoEvts
          (sendMessage demoState "hello" 100 "t1").1)).messages.length = 3 ∧
    ((handleWSMessage 300 "t3" (.chat_complete "c" "u")
        (foldEvents 250 "t2" demoEvts
          (sendMessage demoState "hello" 100 "t1").1)).messages.drop 1).map
        Message.model_id = [some "m1", some "m2"] := by
  have h := C3_turn_responses demoState "hello" 100 250 300 "t1" "t2" "t3" "c" "u" demoEvts
    (by decide) rfl (by decide) (by decide) (by decide)
  exact ⟨h.2.2.2.2.2.1, h.2.2.2.2.2.2⟩

end LLMCouncil
